import Mathlib

/-!
# Verification of the hysysopt optimization core

Shallow embedding of the particle-swarm optimizer (`hysysopt/optimizers/pso.py`),
the objective-evaluation and cost-aggregation logic (`hysysopt/optimizer.py`),
and the parameter-registration scan, together with theorems settling the
specification claims about them.

Real arithmetic is modelled with `ℚ`; numpy's random draws are modelled as
injected streams of values; the external COM simulator state is modelled by
explicit records carrying exactly the fields the embedded code reads.
-/

namespace HysysOpt

/-! ## PSO (`hysysopt/optimizers/pso.py`) -/

/-- Movement tolerance `ptol = 1e-4` of `PSO.run`. -/
def ptol : ℚ := 1 / 10000

/-- Swarm state: positions, velocities, last scores, personal bests and the
global best, for `n` particles in `d` dimensions.  Mirrors the mutable
attributes of the `PSO` class. -/
structure PSOState (n d : ℕ) where
  particles : Fin n → Fin d → ℚ
  pvel : Fin n → Fin d → ℚ
  scores : Fin n → ℚ
  pbest : Fin n → Fin d → ℚ
  pbest_score : Fin n → ℚ
  global_best : Fin d → ℚ
  global_best_score : ℚ
deriving DecidableEq

/-- First index of the minimum of `f`, as computed by `np.argmin` (fold keeping
the current best, replaced only on strict improvement). -/
def argminFin {n : ℕ} (f : Fin n → ℚ) (h : 0 < n) : Fin n :=
  (List.finRange n).foldl (fun b i => if f i < f b then i else b) ⟨0, h⟩

/-- `PSO.__init__`: positions sampled as `lb + r0*(ub-lb)`, initial scores from
one unconditional evaluation of every particle, personal bests seeded from
them, global best at the argmin, velocities sampled as `rv*2*|ub-lb| - |ub-lb|`.
`r0` and `rv` stand for the two `np.random.random` draws. -/
def PSO.init {n d : ℕ} (objfunc : (Fin d → ℚ) → ℚ) (lb ub : Fin d → ℚ)
    (r0 rv : Fin n → Fin d → ℚ) (h : 0 < n) : PSOState n d :=
  let particles : Fin n → Fin d → ℚ := fun i j => lb j + r0 i j * (ub j - lb j)
  let scores : Fin n → ℚ := fun i => objfunc (particles i)
  let im := argminFin scores h
  { particles := particles
    pvel := fun i j => rv i j * 2 * |ub j - lb j| - |ub j - lb j|
    scores := scores
    pbest := particles
    pbest_score := scores
    global_best := particles im
    global_best_score := scores im }

/-- The evaluation-skip test of `PSO.run` (line
`self.to_evaluate = np.all(np.abs(self.new_positions - self.particles) > ptol, axis=1)`):
particle `i` is re-evaluated iff every dimension moved strictly more than
`ptol`. -/
def toEvaluate {n d : ℕ} (newPositions oldPositions : Fin n → Fin d → ℚ)
    (i : Fin n) : Bool :=
  decide (∀ j : Fin d, ptol < |newPositions i j - oldPositions i j|)

/-- Body of the per-particle loop of `PSO.run`: when `toEval i` holds,
re-evaluate the particle, store the score, and update the personal best and
(nested inside) the global best on strict improvement; otherwise do nothing. -/
def processParticle {n d : ℕ} (objfunc : (Fin d → ℚ) → ℚ) (toEval : Fin n → Bool)
    (s : PSOState n d) (i : Fin n) : PSOState n d :=
  if toEval i then
    if objfunc (s.particles i) < s.pbest_score i then
      if objfunc (s.particles i) < s.global_best_score then
        { s with scores := Function.update s.scores i (objfunc (s.particles i))
                 pbest := Function.update s.pbest i (s.particles i)
                 pbest_score := Function.update s.pbest_score i (objfunc (s.particles i))
                 global_best := s.particles i
                 global_best_score := objfunc (s.particles i) }
      else
        { s with scores := Function.update s.scores i (objfunc (s.particles i))
                 pbest := Function.update s.pbest i (s.particles i)
                 pbest_score := Function.update s.pbest_score i (objfunc (s.particles i)) }
    else { s with scores := Function.update s.scores i (objfunc (s.particles i)) }
  else s

/-- The velocity-update line of `PSO.run`:
`self.pvel = w*self.pvel + phip*rp*(self.pbest - self.particles) + phig*rg*(self.global_best - self.particles)`
with `w = phip = phig = 1/2`. -/
def stepVel {n d : ℕ} (rp rg : Fin n → Fin d → ℚ) (s : PSOState n d)
    (i : Fin n) (j : Fin d) : ℚ :=
  (1/2) * s.pvel i j + (1/2) * rp i j * (s.pbest i j - s.particles i j)
    + (1/2) * rg i j * (s.global_best j - s.particles i j)

/-- The position-update line of `PSO.run`:
`self.new_positions = np.minimum(np.maximum(self.particles + self.pvel, self.lb), self.ub)`. -/
def stepPos {n d : ℕ} (lb ub : Fin d → ℚ) (rp rg : Fin n → Fin d → ℚ)
    (s : PSOState n d) (i : Fin n) (j : Fin d) : ℚ :=
  min (max (s.particles i j + stepVel rp rg s i j) (lb j)) (ub j)

/-- One iteration of `PSO.run` with random draws `rp`, `rg`: velocity update,
candidate positions clamped to the bounds, skip test against the previous
positions, then the sequential per-particle best-tracking loop. -/
def PSO.step {n d : ℕ} (objfunc : (Fin d → ℚ) → ℚ) (lb ub : Fin d → ℚ)
    (rp rg : Fin n → Fin d → ℚ) (s : PSOState n d) : PSOState n d :=
  (List.finRange n).foldl
    (processParticle objfunc (toEvaluate (stepPos lb ub rp rg s) s.particles))
    { s with particles := stepPos lb ub rp rg s, pvel := stepVel rp rg s }

/-- `PSO.run` without a callback: `k` iterations, iteration `m` using the
random draws `rpS m`, `rgS m`. -/
def PSO.run {n d : ℕ} (objfunc : (Fin d → ℚ) → ℚ) (lb ub : Fin d → ℚ)
    (rpS rgS : ℕ → Fin n → Fin d → ℚ) (s : PSOState n d) : ℕ → PSOState n d
  | 0 => s
  | k + 1 => PSO.step objfunc lb ub (rpS k) (rgS k)
      (PSO.run objfunc lb ub rpS rgS s k)

/-- `PSO.run` with a callback: after each iteration the callback receives the
iteration index, the positions and the scores.  The callback's effect is
modelled in `Except ε`; the code calls it with no handler, so an error
propagates out of `run` immediately. -/
def PSO.runCb {n d : ℕ} {ε : Type} (objfunc : (Fin d → ℚ) → ℚ) (lb ub : Fin d → ℚ)
    (rpS rgS : ℕ → Fin n → Fin d → ℚ)
    (cb : ℕ → (Fin n → Fin d → ℚ) → (Fin n → ℚ) → Except ε Unit)
    (s : PSOState n d) : ℕ → Except ε (PSOState n d)
  | 0 => Except.ok s
  | k + 1 =>
    match PSO.runCb objfunc lb ub rpS rgS cb s k with
    | Except.error e => Except.error e
    | Except.ok st =>
      let st' := PSO.step objfunc lb ub (rpS k) (rgS k) st
      match cb k st'.particles st'.scores with
      | Except.error e => Except.error e
      | Except.ok _ => Except.ok st'

/-! ## Objective evaluation and cost aggregation (`hysysopt/optimizer.py`) -/

/-- The infeasible sentinel `INF = 1e9` of `optimizer.py`. -/
def INF : ℚ := 1000000000

/-- A Python float that may be NaN (`np.isnan` is the only float predicate the
embedded code uses; NaN propagates through addition). -/
inductive PyFloat where
  | nan : PyFloat
  | val : ℚ → PyFloat
deriving DecidableEq

/-- Addition on `PyFloat`; NaN is absorbing, as for IEEE addition. -/
def PyFloat.add : PyFloat → PyFloat → PyFloat
  | PyFloat.nan, _ => PyFloat.nan
  | _, PyFloat.nan => PyFloat.nan
  | PyFloat.val a, PyFloat.val b => PyFloat.val (a + b)

/-- `np.isnan`. -/
def PyFloat.isnan : PyFloat → Bool
  | PyFloat.nan => true
  | PyFloat.val _ => false

/-- A costed column entity, carrying the one field the aggregator reads
(`col.op.ColumnFlowsheet.CfsConverged`) plus opaque physical data the
externally supplied cost function may read. -/
structure Column where
  converged : Bool
  data : ℚ
deriving DecidableEq

/-- A costed heat-exchanger entity (opaque to the aggregator beyond being
passed to its cost function). -/
structure Exchanger where
  data : ℚ
deriving DecidableEq

/-- A registered cost binding: `attach_cost_function` admits exactly the
`"columns"` and `"heatexchangers"` operation tags. -/
inductive CostBinding where
  | columns (fn : Column → PyFloat)
  | heatexchangers (fn : Exchanger → PyFloat)

/-- The entity collections and cost bindings that `calculate_costs` reads from
the optimizer object. -/
structure CostCtx where
  columns : List Column
  exchangers : List Exchanger
  cost_funcs : List CostBinding

/-- Inner loop of `calculate_costs` for a `"columns"` binding: walk the column
list accumulating costs; at the first column with `CfsConverged` false the code
prints and `return -1` — modelled by `none`. -/
def sumColumnCosts (fn : Column → PyFloat) : List Column → PyFloat → Option PyFloat
  | [], acc => some acc
  | c :: rest, acc =>
    if c.converged then sumColumnCosts fn rest (acc.add (fn c)) else none

/-- Inner loop of `calculate_costs` for a `"heatexchangers"` binding. -/
def sumExchangerCosts (fn : Exchanger → PyFloat) : List Exchanger → PyFloat → PyFloat
  | [], acc => acc
  | h :: rest, acc => sumExchangerCosts fn rest (acc.add (fn h))

/-- Outer loop of `calculate_costs` over the registered cost bindings; an early
`return -1` from the columns loop ends the whole call with `-1`. -/
def calcCostsAux (ctx : CostCtx) : List CostBinding → PyFloat → PyFloat
  | [], acc => acc
  | CostBinding.columns fn :: rest, acc =>
    match sumColumnCosts fn ctx.columns acc with
    | none => PyFloat.val (-1)
    | some acc' => calcCostsAux ctx rest acc'
  | CostBinding.heatexchangers fn :: rest, acc =>
    calcCostsAux ctx rest (sumExchangerCosts fn ctx.exchangers acc)

/-- `HysysOptimizer.calculate_costs`. -/
def calculate_costs (ctx : CostCtx) : PyFloat :=
  calcCostsAux ctx ctx.cost_funcs (PyFloat.val 0)

/-- The tail of `HysysOptimizer.objective_function` after the poll loop: if any
column's `CfsConverged` is false, return `INF`; otherwise aggregate the costs
and return `INF` exactly when the aggregate is NaN. -/
def objective_result (ctx : CostCtx) : PyFloat :=
  if ctx.columns.any (fun c => !c.converged) then PyFloat.val INF
  else
    let cost := calculate_costs ctx
    if cost.isnan then PyFloat.val INF else cost

/-- The convergence poll loop of `objective_function`
(`while col.op.ColumnFlowsheet.SolvingStatus or (time.time() - t) > 3: time.sleep(0.25)`),
run with explicit fuel.  `solving m` is the value of `SolvingStatus` at the
`m`-th poll, `e` the elapsed wall-clock seconds at the current poll; each sleep
advances the clock by `1/4` second.  `some e'` means the loop exited with
elapsed time `e'`; `none` means the loop was still running when the fuel ran
out. -/
def poll_loop (solving : ℕ → Bool) : ℕ → ℕ → ℚ → Option ℚ
  | 0, _, _ => none
  | fuel + 1, m, e =>
    if solving m || decide (3 < e) then poll_loop solving fuel (m + 1) (e + 1/4)
    else some e

/-- `_default_column_pressure_drop`: bottom pressure from top pressure, tray
count and the condenser/reboiler pressure drops, at 0.689476 kPa per tray. -/
def default_column_pressure_drop (p_cond n_trays dp_cond dp_reb : ℚ) : ℚ :=
  p_cond + dp_cond + dp_reb + n_trays * (689476 / 1000000)

/-! ### The "update column pressures" loop of `objective_function`

Parameter records are Python dicts; `get_opt_vars` builds them with string keys
only (`"name"`, `"value"`, `"lb"`, `"ub"`, `"unit"`, `"interface"`,
`"col_interface"`, `"btm_interface"`).  The loop
`for i, p in enumerate(self.params)` evaluates `p[i]["interface"]`, i.e. it
subscripts the dict with the integer loop index, so the dict lookup is modelled
with keys that are either integers or strings. -/

/-- A Python dict key as used on a parameter record: an integer subscript or a
string subscript. -/
inductive PyKey where
  | int (n : ℕ) : PyKey
  | str (s : String) : PyKey
deriving DecidableEq

/-- The data behind a column's pressure interface that the loop reads:
`NumberOfTrays` and the condenser/reboiler `VesselPressureDrop` in kPa. -/
structure ColumnIface where
  n_trays : ℚ
  dp_cond : ℚ
  dp_reb : ℚ
deriving DecidableEq

/-- A value stored in a parameter dict: a string, a number, a column pressure
interface handle, or a bottom-pressure cell handle (identified by name). -/
inductive PyVal where
  | str (s : String) : PyVal
  | num (q : ℚ) : PyVal
  | iface (c : ColumnIface) : PyVal
  | cell (id : String) : PyVal
deriving DecidableEq

/-- A parameter record as a key/value association list. -/
def PDict := List (PyKey × PyVal)

/-- Python dict subscript: `none` models a raised `KeyError`. -/
def dictGet (d : PDict) (k : PyKey) : Option PyVal :=
  (d.find? (fun kv => kv.1 = k)).map (·.2)

/-- The parameter dict that `get_opt_vars` builds for a `"Top Stage Press"`
row: string keys only. -/
def mkTopPressParam (lb ub : ℚ) (c : ColumnIface) (btmCell : String) : PDict :=
  [(PyKey.str "name", PyVal.str "Top Stage Press"),
   (PyKey.str "value", PyVal.num 0),
   (PyKey.str "lb", PyVal.num lb),
   (PyKey.str "ub", PyVal.num ub),
   (PyKey.str "unit", PyVal.str "kPa"),
   (PyKey.str "interface", PyVal.iface c),
   (PyKey.str "btm_interface", PyVal.cell btmCell)]

/-- One `SetValue` push to the external simulator, recorded as
(target cell, value). -/
def SetEffect := List (String × ℚ)

/-- The "update column pressures" loop of `objective_function` as written:
`for i, p in enumerate(self.params): if p["name"] == "Top Stage Press": ...`
with the body starting at `cfs_op = p[i]["interface"].ImportedVariable...`.
`p[i]` subscripts the string-keyed dict with the integer index `i`; a missing
key is a `KeyError`, returned as `Except.error`.  On success the loop records
the condenser and reboiler `SetValue` pushes. -/
def update_column_pressures (get_column_deltaP : ℚ → ℚ → ℚ → ℚ → ℚ)
    (params : List PDict) (x : ℕ → ℚ) : Except String SetEffect :=
  go params 0 []
where
  /-- Loop over `enumerate(self.params)` carrying the index and the recorded
  `SetValue` effects (in reverse order of execution). -/
  go : List PDict → ℕ → SetEffect → Except String SetEffect
  | [], _, effs => Except.ok effs.reverse
  | p :: rest, i, effs =>
    if dictGet p (PyKey.str "name") = some (PyVal.str "Top Stage Press") then
      match dictGet p (PyKey.int i) with
      | none => Except.error "KeyError"
      | some (PyVal.iface c) =>
        let pressure_drop := get_column_deltaP (x i) c.n_trays c.dp_cond c.dp_reb
        match dictGet p (PyKey.str "btm_interface") with
        | some (PyVal.cell btm) =>
          go rest (i + 1) ((btm, pressure_drop) :: ("Top Stage Press", x i) :: effs)
        | _ => Except.error "KeyError"
      | some _ => Except.error "AttributeError"
    else go rest (i + 1) effs

/-- Modelled from the spec: the same loop with the obvious one-token repair
`p["interface"]` in place of `p[i]["interface"]` (matching the correct
accesses `p["interface"]` and `p["btm_interface"]` a few lines below in the
same function), used to exhibit the value the claim says is pushed. -/
def update_column_pressures_intended (get_column_deltaP : ℚ → ℚ → ℚ → ℚ → ℚ)
    (params : List PDict) (x : ℕ → ℚ) : Except String SetEffect :=
  go params 0 []
where
  /-- Loop as in `update_column_pressures.go` but subscripting with the string
  key `"interface"`. -/
  go : List PDict → ℕ → SetEffect → Except String SetEffect
  | [], _, effs => Except.ok effs.reverse
  | p :: rest, i, effs =>
    if dictGet p (PyKey.str "name") = some (PyVal.str "Top Stage Press") then
      match dictGet p (PyKey.str "interface") with
      | none => Except.error "KeyError"
      | some (PyVal.iface c) =>
        let pressure_drop := get_column_deltaP (x i) c.n_trays c.dp_cond c.dp_reb
        match dictGet p (PyKey.str "btm_interface") with
        | some (PyVal.cell btm) =>
          go rest (i + 1) ((btm, pressure_drop) :: ("Top Stage Press", x i) :: effs)
        | _ => Except.error "KeyError"
      | some _ => Except.error "AttributeError"
    else go rest (i + 1) effs

/-! ### Parameter registration (`get_opt_vars`, `optimize_feed_location`) -/

/-- Python's `str.lower()`, used for the case-insensitive name searches
(character-wise lowering of the underlying character list). -/
def lowerStr (s : String) : String := ⟨s.data.map Char.toLower⟩

/-- A spreadsheet cell as read by `get_opt_vars`: the attached variable name,
its units and current value, and the raw `CellValue` (`none` models a read
that raises, cf. the try/except around the bound reads). -/
structure SSCell where
  varName : String
  units : String
  value : ℚ
  cellValue : Option ℚ
deriving DecidableEq

/-- A HYSYS spreadsheet operation: name, column/row counts and the cell grid
(1-indexed by row and column as in `_get_cell_ref`). -/
structure Spreadsheet where
  name : String
  numberOfColumns : ℕ
  numberOfRows : ℕ
  cell : ℕ → ℕ → SSCell

/-- A registered parameter record, with the fields every kind shares; `linked`
records whether a `btm_interface` was attached (`"Top Stage Press"` rows). -/
structure ParamRec where
  name : String
  value : ℚ
  lb : ℚ
  ub : ℚ
  unit : String
  linked : Bool
deriving DecidableEq

/-- Row scan of `get_opt_vars`: for each row read the first cell's variable
name (empty name breaks the scan), the units and value, the bound cells
(unreadable bounds raise `ValueError`), check the linked bottom-pressure cell
for a `"Top Stage Press"` row (missing link raises `ValueError`), and append
the parameter record.  No comparison of `lb` against `ub` and no name
uniqueness check appears anywhere in the source loop. -/
def get_opt_vars_rows (ss : Spreadsheet) : ℕ → ℕ → List ParamRec →
    Except String (List ParamRec)
  | 0, _, acc => Except.ok acc
  | fuel + 1, i, acc =>
    let c1 := ss.cell i 1
    if c1.varName = "" then Except.ok acc
    else
      match (ss.cell i 2).cellValue, (ss.cell i 3).cellValue with
      | some lb, some ub =>
        if c1.varName = "Top Stage Press" then
          if (ss.cell i 4).varName = "Bottom Stage Press" then
            get_opt_vars_rows ss fuel (i + 1)
              (acc ++ [⟨c1.varName, c1.value, lb, ub, c1.units, true⟩])
          else Except.error "ValueError: bottom pressure cell not found"
        else
          get_opt_vars_rows ss fuel (i + 1)
            (acc ++ [⟨c1.varName, c1.value, lb, ub, c1.units, false⟩])
      | _, _ => Except.error "ValueError: could not read bounds"

/-- `HysysOptimizer.get_opt_vars`: find the spreadsheet by case-insensitive
name (`LookupError` if absent), require at least three columns (`ValueError`
otherwise), then scan the rows, appending to the already-registered
parameters. -/
def get_opt_vars (operations : List Spreadsheet) (sheet_name : String)
    (params : List ParamRec) : Except String (List ParamRec) :=
  match operations.filter (fun o => lowerStr o.name = lowerStr sheet_name) with
  | [] => Except.error "LookupError: spreadsheet object does not exist"
  | ss :: _ =>
    if ss.numberOfColumns < 3 then Except.error "ValueError: invalid variable inputs"
    else get_opt_vars_rows ss ss.numberOfRows 1 params

/-- A feed stream of a column flowsheet, as inspected by
`optimize_feed_location`. -/
structure FeedStream where
  name : String
  typeName : String
deriving DecidableEq

/-- A column operation: name and feed streams. -/
structure ColumnOp where
  name : String
  feeds : List FeedStream

/-- The stream-search loop of `optimize_feed_location`: first material stream
when no stream name is given, otherwise the material stream with the matching
case-insensitive name. -/
def findFeedStream : List FeedStream → Option String → Option FeedStream
  | [], _ => none
  | s :: rest, sname =>
    if s.typeName = "materialstream" then
      match sname with
      | none => some s
      | some nm => if lowerStr nm = lowerStr s.name then some s
                   else findFeedStream rest sname
    else findFeedStream rest sname

/-- `HysysOptimizer.optimize_feed_location`: find the column by
case-insensitive name, find the feed stream, and append a feed-location
parameter with bounds `lb_frac`, `ub_frac` — again with no bounds or
uniqueness validation. -/
def optimize_feed_location (operations : List ColumnOp) (col_name : String)
    (stream_name : Option String) (lb_frac ub_frac : ℚ)
    (params : List ParamRec) : Except String (List ParamRec) :=
  match operations.filter (fun o => lowerStr o.name = lowerStr col_name) with
  | [] => Except.error "LookupError: failed to find column"
  | col :: _ =>
    match findFeedStream col.feeds stream_name with
    | none => Except.error "LookupError: failed to find stream"
    | some f =>
      Except.ok (params ++
        [⟨col.name ++ ": Feed Location (" ++ f.name ++ ")", -1, lb_frac, ub_frac,
          "feed_location", false⟩])

/-! ## Helper lemmas -/

theorem processParticle_particles {n d : ℕ} (f : (Fin d → ℚ) → ℚ)
    (te : Fin n → Bool) (s : PSOState n d) (i : Fin n) :
    (processParticle f te s i).particles = s.particles := by
  unfold processParticle; split_ifs <;> rfl

theorem processParticle_pvel {n d : ℕ} (f : (Fin d → ℚ) → ℚ)
    (te : Fin n → Bool) (s : PSOState n d) (i : Fin n) :
    (processParticle f te s i).pvel = s.pvel := by
  unfold processParticle; split_ifs <;> rfl

theorem foldl_pp_particles {n d : ℕ} (f : (Fin d → ℚ) → ℚ) (te : Fin n → Bool)
    (l : List (Fin n)) (s : PSOState n d) :
    (l.foldl (processParticle f te) s).particles = s.particles := by
  induction l generalizing s with
  | nil => rfl
  | cons a l ih => rw [List.foldl_cons, ih, processParticle_particles]

theorem foldl_pp_pvel {n d : ℕ} (f : (Fin d → ℚ) → ℚ) (te : Fin n → Bool)
    (l : List (Fin n)) (s : PSOState n d) :
    (l.foldl (processParticle f te) s).pvel = s.pvel := by
  induction l generalizing s with
  | nil => rfl
  | cons a l ih => rw [List.foldl_cons, ih, processParticle_pvel]

theorem step_particles {n d : ℕ} (f : (Fin d → ℚ) → ℚ) (lb ub : Fin d → ℚ)
    (rp rg : Fin n → Fin d → ℚ) (s : PSOState n d) :
    (PSO.step f lb ub rp rg s).particles = stepPos lb ub rp rg s := by
  unfold PSO.step; rw [foldl_pp_particles]

theorem step_pvel {n d : ℕ} (f : (Fin d → ℚ) → ℚ) (lb ub : Fin d → ℚ)
    (rp rg : Fin n → Fin d → ℚ) (s : PSOState n d) :
    (PSO.step f lb ub rp rg s).pvel = stepVel rp rg s := by
  unfold PSO.step; rw [foldl_pp_pvel]

theorem processParticle_gbs_le {n d : ℕ} (f : (Fin d → ℚ) → ℚ)
    (te : Fin n → Bool) (s : PSOState n d) (i : Fin n) :
    (processParticle f te s i).global_best_score ≤ s.global_best_score := by
  unfold processParticle
  split_ifs with h1 h2 h3
  · exact le_of_lt h3
  · exact le_refl _
  · exact le_refl _
  · exact le_refl _

theorem foldl_pp_gbs_le {n d : ℕ} (f : (Fin d → ℚ) → ℚ) (te : Fin n → Bool)
    (l : List (Fin n)) (s : PSOState n d) :
    (l.foldl (processParticle f te) s).global_best_score ≤ s.global_best_score := by
  induction l generalizing s with
  | nil => exact le_refl _
  | cons a l ih =>
    rw [List.foldl_cons]
    exact le_trans (ih _) (processParticle_gbs_le f te s a)

theorem processParticle_inv {n d : ℕ} (f : (Fin d → ℚ) → ℚ) (te : Fin n → Bool)
    (s : PSOState n d) (i : Fin n)
    (h : ∀ m, s.global_best_score ≤ s.pbest_score m) (m : Fin n) :
    (processParticle f te s i).global_best_score ≤
      (processParticle f te s i).pbest_score m := by
  unfold processParticle
  split_ifs with h1 h2 h3
  · dsimp only
    rw [Function.update_apply]
    split_ifs with he
    · exact le_refl _
    · exact le_trans (le_of_lt h3) (h m)
  · dsimp only
    rw [Function.update_apply]
    split_ifs with he
    · exact not_lt.mp h3
    · exact h m
  · exact h m
  · exact h m

theorem foldl_pp_inv {n d : ℕ} (f : (Fin d → ℚ) → ℚ) (te : Fin n → Bool)
    (l : List (Fin n)) (s : PSOState n d)
    (h : ∀ m, s.global_best_score ≤ s.pbest_score m) (m : Fin n) :
    (l.foldl (processParticle f te) s).global_best_score ≤
      (l.foldl (processParticle f te) s).pbest_score m := by
  induction l generalizing s with
  | nil => exact h m
  | cons a l ih =>
    rw [List.foldl_cons]
    exact ih _ (processParticle_inv f te s a h)

theorem foldl_argmin_le {n : ℕ} (f : Fin n → ℚ) (l : List (Fin n)) (b : Fin n) :
    f (l.foldl (fun b i => if f i < f b then i else b) b) ≤ f b ∧
      ∀ i ∈ l, f (l.foldl (fun b i => if f i < f b then i else b) b) ≤ f i := by
  induction l generalizing b with
  | nil => exact ⟨le_refl _, by simp⟩
  | cons a l ih =>
    rw [List.foldl_cons]
    obtain ⟨h1, h2⟩ := ih (if f a < f b then a else b)
    refine ⟨le_trans h1 ?_, ?_⟩
    · split_ifs with hab
      · exact le_of_lt hab
      · exact le_refl _
    · intro i hi
      rcases List.mem_cons.mp hi with rfl | hi
      · refine le_trans h1 ?_
        split_ifs with hab
        · exact le_refl _
        · exact not_lt.mp hab
      · exact h2 i hi

theorem argminFin_le {n : ℕ} (f : Fin n → ℚ) (h : 0 < n) (i : Fin n) :
    f (argminFin f h) ≤ f i :=
  (foldl_argmin_le f (List.finRange n) ⟨0, h⟩).2 i (List.mem_finRange i)

theorem clamp_bounds {x lo hi : ℚ} (h : lo ≤ hi) :
    lo ≤ min (max x lo) hi ∧ min (max x lo) hi ≤ hi :=
  ⟨le_min (le_max_right _ _) h, min_le_right _ _⟩

theorem sumColumnCosts_none {fn : Column → PyFloat} {cols : List Column}
    (h : ∃ c ∈ cols, c.converged = false) (acc : PyFloat) :
    sumColumnCosts fn cols acc = none := by
  induction cols generalizing acc with
  | nil => simp at h
  | cons c rest ih =>
    unfold sumColumnCosts
    by_cases hcc : c.converged = true
    · rw [if_pos hcc]
      rcases h with ⟨c', hc', hconv⟩
      rcases List.mem_cons.mp hc' with rfl | hmem
      · rw [hcc] at hconv; exact absurd hconv (by simp)
      · exact ih ⟨c', hmem, hconv⟩ _
    · rw [if_neg hcc]

theorem calcCostsAux_fail (ctx : CostCtx) (l : List CostBinding) (acc : PyFloat)
    (hcol : ∃ c ∈ ctx.columns, c.converged = false)
    (hfn : ∃ fn, CostBinding.columns fn ∈ l) :
    calcCostsAux ctx l acc = PyFloat.val (-1) := by
  induction l generalizing acc with
  | nil => rcases hfn with ⟨fn, hfn⟩; simp at hfn
  | cons b rest ih =>
    cases b with
    | columns fn =>
      unfold calcCostsAux
      rw [sumColumnCosts_none hcol]
    | heatexchangers fn =>
      unfold calcCostsAux
      apply ih
      rcases hfn with ⟨g, hg⟩
      rcases List.mem_cons.mp hg with hh | hh
      · exact absurd hh (by simp)
      · exact ⟨g, hh⟩

theorem init_particles {n d : ℕ} (f : (Fin d → ℚ) → ℚ) (lb ub : Fin d → ℚ)
    (r0 rv : Fin n → Fin d → ℚ) (h : 0 < n) (i : Fin n) (j : Fin d) :
    (PSO.init f lb ub r0 rv h).particles i j = lb j + r0 i j * (ub j - lb j) := rfl

theorem run_succ {n d : ℕ} (f : (Fin d → ℚ) → ℚ) (lb ub : Fin d → ℚ)
    (rpS rgS : ℕ → Fin n → Fin d → ℚ) (s : PSOState n d) (k : ℕ) :
    PSO.run f lb ub rpS rgS s (k + 1) =
      PSO.step f lb ub (rpS k) (rgS k) (PSO.run f lb ub rpS rgS s k) := rfl

theorem processParticle_skip {n d : ℕ} (f : (Fin d → ℚ) → ℚ) (te : Fin n → Bool)
    (s : PSOState n d) (i : Fin n) (h : te i = false) :
    processParticle f te s i = s := by
  unfold processParticle; simp [h]

theorem processParticle_other_fields {n d : ℕ} (f : (Fin d → ℚ) → ℚ)
    (te : Fin n → Bool) (s : PSOState n d) (a i : Fin n) (h : te i = false) :
    (processParticle f te s a).scores i = s.scores i ∧
    (processParticle f te s a).pbest i = s.pbest i ∧
    (processParticle f te s a).pbest_score i = s.pbest_score i := by
  by_cases hai : a = i
  · subst hai
    rw [processParticle_skip f te s a h]
    exact ⟨rfl, rfl, rfl⟩
  · have hia : i ≠ a := fun hh => hai hh.symm
    unfold processParticle
    split_ifs <;>
      exact ⟨by simp [Function.update_apply, hia], by simp [Function.update_apply, hia],
        by simp [Function.update_apply, hia]⟩

theorem foldl_pp_other_fields {n d : ℕ} (f : (Fin d → ℚ) → ℚ) (te : Fin n → Bool)
    (l : List (Fin n)) (s : PSOState n d) (i : Fin n) (h : te i = false) :
    (l.foldl (processParticle f te) s).scores i = s.scores i ∧
    (l.foldl (processParticle f te) s).pbest i = s.pbest i ∧
    (l.foldl (processParticle f te) s).pbest_score i = s.pbest_score i := by
  induction l generalizing s with
  | nil => exact ⟨rfl, rfl, rfl⟩
  | cons a l ih =>
    rw [List.foldl_cons]
    obtain ⟨e1, e2, e3⟩ := ih (processParticle f te s a)
    obtain ⟨f1, f2, f3⟩ := processParticle_other_fields f te s a i h
    exact ⟨e1.trans f1, e2.trans f2, e3.trans f3⟩

theorem step_gbs_le {n d : ℕ} (f : (Fin d → ℚ) → ℚ) (lb ub : Fin d → ℚ)
    (rp rg : Fin n → Fin d → ℚ) (s : PSOState n d) :
    (PSO.step f lb ub rp rg s).global_best_score ≤ s.global_best_score := by
  unfold PSO.step
  apply foldl_pp_gbs_le

theorem step_inv {n d : ℕ} (f : (Fin d → ℚ) → ℚ) (lb ub : Fin d → ℚ)
    (rp rg : Fin n → Fin d → ℚ) (s : PSOState n d)
    (h : ∀ m, s.global_best_score ≤ s.pbest_score m) (m : Fin n) :
    (PSO.step f lb ub rp rg s).global_best_score ≤
      (PSO.step f lb ub rp rg s).pbest_score m := by
  unfold PSO.step
  apply foldl_pp_inv
  intro m'
  exact h m'

/-! ## Claim theorems -/

/-- C1: the claim says the convergence poll loop terminates — it polls at a
fixed interval and, if convergence is not reached within the bounded timeout,
the evaluation stops polling and returns the infeasible sentinel.  The code's
loop condition is `SolvingStatus or (time.time() - t) > 3`, so once the
elapsed time exceeds the 3-second timeout the condition is true forever and
the loop never exits: for every fuel bound, polling from an elapsed time
beyond 3 seconds is still running when the fuel is exhausted, whatever the
solver status reports. -/
theorem C1_poll_loop_blocks_after_timeout (solving : ℕ → Bool) (fuel m : ℕ)
    (e : ℚ) (h : 3 < e) : poll_loop solving fuel m e = none := by
  induction fuel generalizing m e with
  | zero => rfl
  | succ fuel ih =>
    have hc : (solving m || decide (3 < e)) = true := by simp [h]
    unfold poll_loop
    rw [if_pos hc]
    exact ih (m + 1) (e + 1/4) (by linarith)

/-- C1 witness: at elapsed time 4 s > 3 s the poll loop is still running after
100 further polls, even with the solver reporting "not solving" throughout. -/
theorem C1_witness :
    (3 : ℚ) < 4 ∧ poll_loop (fun _ => false) 100 0 4 = none :=
  ⟨by norm_num, C1_poll_loop_blocks_after_timeout (fun _ => false) 100 0 4 (by norm_num)⟩

/-- The parameter list holding one linked-pressure (`"Top Stage Press"`)
parameter whose column has 50 trays, condenser ΔP 2 kPa and reboiler ΔP 3 kPa,
with the bottom-pressure cell `"D1"`. -/
def paramsC9 : List PDict := [mkTopPressParam 100 150 ⟨50, 2, 3⟩ "D1"]

/-- C9: the claim says applying a linked-pressure parameter computes the
dependent bottom pressure with the pressure-drop function and pushes it to the
bottom-pressure setter.  The code's loop reads `p[i]["interface"]`,
subscripting the string-keyed parameter dict with the integer loop index, so
applying a top pressure of 120 raises `KeyError` and nothing is pushed; with
the evident one-token repair `p["interface"]` (matching the correct dict
accesses a few lines below) the loop pushes exactly the bottom pressure
`120 + 2 + 3 + 50*0.689476 = 159.4738` the claim describes (the claim's
numeral 159.474 is that value rounded to three decimals). -/
theorem C9_top_pressure_apply :
    update_column_pressures default_column_pressure_drop paramsC9 (fun _ => 120)
      = Except.error "KeyError" ∧
    update_column_pressures_intended default_column_pressure_drop paramsC9 (fun _ => 120)
      = Except.ok [("Top Stage Press", 120), ("D1", 159.4738)] ∧
    default_column_pressure_drop 120 50 2 3 = 159.4738 ∧
    default_column_pressure_drop 120 50 2 3 ≠ 159.474 := by
  refine ⟨rfl, ?_, by norm_num [default_column_pressure_drop], by norm_num [default_column_pressure_drop]⟩
  show Except.ok [("Top Stage Press", (120 : ℚ)),
    ("D1", default_column_pressure_drop 120 50 2 3)] = _
  norm_num [default_column_pressure_drop]

/-- C2: whenever a costed column lacks the convergence precondition, the cost
aggregator reports failure immediately — it returns its failure code `-1`
instead of a partial sum — and the objective evaluator returns the infeasible
sentinel `INF = 1e9` for that state (via its own convergence check, performed
before the aggregator is consulted), never a small or negative cost. -/
theorem C2_aggregation_failure_is_infeasible (ctx : CostCtx)
    (hcol : ∃ c ∈ ctx.columns, c.converged = false)
    (hfn : ∃ fn, CostBinding.columns fn ∈ ctx.cost_funcs) :
    calculate_costs ctx = PyFloat.val (-1) ∧
      objective_result ctx = PyFloat.val INF := by
  constructor
  · exact calcCostsAux_fail ctx ctx.cost_funcs _ hcol hfn
  · have ha : ctx.columns.any (fun c => !c.converged) = true := by
      rcases hcol with ⟨c, hc, hconv⟩
      simp only [List.any_eq_true]
      exact ⟨c, hc, by simp [hconv]⟩
    unfold objective_result
    rw [if_pos ha]

/-- The context of `C2_witness`: one unconverged column and one column cost
binding. -/
def ctxC2 : CostCtx :=
  ⟨[⟨false, 0⟩], [], [CostBinding.columns (fun _ => PyFloat.val 7)]⟩

/-- C2 witness: on a context with an unconverged column and a registered
column cost function, the aggregator returns its failure code and the
evaluator returns the sentinel. -/
theorem C2_witness :
    (∃ c ∈ ctxC2.columns, c.converged = false) ∧
    (∃ fn, CostBinding.columns fn ∈ ctxC2.cost_funcs) ∧
    calculate_costs ctxC2 = PyFloat.val (-1) ∧
    objective_result ctxC2 = PyFloat.val INF := by
  have h1 : ∃ c ∈ ctxC2.columns, c.converged = false :=
    ⟨⟨false, 0⟩, by simp [ctxC2], rfl⟩
  have h2 : ∃ fn, CostBinding.columns fn ∈ ctxC2.cost_funcs :=
    ⟨fun _ => PyFloat.val 7, by simp [ctxC2]⟩
  exact ⟨h1, h2, (C2_aggregation_failure_is_infeasible ctxC2 h1 h2).1,
    (C2_aggregation_failure_is_infeasible ctxC2 h1 h2).2⟩

/-- New positions of the C3 counterexample: the single particle moved by 1 in
dimension 0 and by 0 in dimension 1. -/
def newPosC3 : Fin 1 → Fin 2 → ℚ := fun _ => ![1, 0]

/-- Old positions of the C3 counterexample. -/
def oldPosC3 : Fin 1 → Fin 2 → ℚ := fun _ _ => 0

/-- C3 counterexample: the claim says the skip heuristic never skips when at
least one dimension moved by more than `ptol`.  Here dimension 0 moved by
`1 > ptol`, yet the particle is skipped (`to_evaluate` is false), because the
code requires *every* dimension to move by more than `ptol`
(`np.all(... > ptol, axis=1)`). -/
theorem C3_counterexample :
    (∃ j : Fin 2, ptol < |newPosC3 0 j - oldPosC3 0 j|) ∧
      toEvaluate newPosC3 oldPosC3 0 = false := by
  constructor
  · exact ⟨0, by norm_num [newPosC3, oldPosC3, ptol]⟩
  · have h1 : ¬ ∀ j : Fin 2, ptol < |newPosC3 0 j - oldPosC3 0 j| := by
      intro hall
      have h2 := hall 1
      norm_num [newPosC3, oldPosC3, ptol] at h2
    simp [toEvaluate, h1]

/-- C3 amended: a particle is re-evaluated iff *every* dimension of its
movement exceeds `ptol`; consequently (in any nonzero-dimensional search
space) it is always skipped when every dimension's movement is at most `ptol`
— and also whenever merely one dimension's movement is at most `ptol`. -/
theorem C3_eval_iff_all_dims_moved {n d : ℕ} (newP oldP : Fin n → Fin d → ℚ)
    (i : Fin n) (hd : 0 < d) :
    (toEvaluate newP oldP i = true ↔ ∀ j, ptol < |newP i j - oldP i j|) ∧
    ((∀ j, |newP i j - oldP i j| ≤ ptol) → toEvaluate newP oldP i = false) := by
  constructor
  · simp [toEvaluate]
  · intro hall
    simp only [toEvaluate, decide_eq_false_iff_not]
    intro hcon
    exact absurd (hcon ⟨0, hd⟩) (not_lt.mpr (hall ⟨0, hd⟩))

/-- Positions of the C3 witness instance (one particle, one dimension). -/
def oldPosC3W : Fin 1 → Fin 1 → ℚ := fun _ _ => 0

/-- C3 witness: a one-dimensional instance with no movement; the skip test
evaluates to false exactly as the amended claim states. -/
theorem C3_witness :
    0 < 1 ∧
    ((toEvaluate oldPosC3W oldPosC3W 0 = true ↔
        ∀ j : Fin 1, ptol < |oldPosC3W 0 j - oldPosC3W 0 j|) ∧
      ((∀ j : Fin 1, |oldPosC3W 0 j - oldPosC3W 0 j| ≤ ptol) →
        toEvaluate oldPosC3W oldPosC3W 0 = false)) :=
  ⟨Nat.one_pos, C3_eval_iff_all_dims_moved oldPosC3W oldPosC3W 0 Nat.one_pos⟩

/-- The spreadsheet of the C4 counterexample: two rows, both attached to a
variable named `"A"`, the first declaring lower bound 5 and upper bound 1. -/
def sheetC4 : Spreadsheet :=
  { name := "opt"
    numberOfColumns := 3
    numberOfRows := 2
    cell := fun i j =>
      if i = 1 ∧ j = 1 then ⟨"A", "C", 0, none⟩
      else if i = 1 ∧ j = 2 then ⟨"", "", 0, some 5⟩
      else if i = 1 ∧ j = 3 then ⟨"", "", 0, some 1⟩
      else if i = 2 ∧ j = 1 then ⟨"A", "C", 0, none⟩
      else if i = 2 ∧ j = 2 then ⟨"", "", 0, some 0⟩
      else if i = 2 ∧ j = 3 then ⟨"", "", 0, some 1⟩
      else ⟨"", "", 0, none⟩ }

/-- C4 counterexample: the claim says registering a parameter with
`lower ≥ upper`, or one whose name already exists, raises a
`ConfigurationError`.  Scanning a spreadsheet whose first row has bounds
`lb = 5 ≥ 1 = ub` and whose second row repeats the name `"A"` raises nothing:
both rows are registered. -/
theorem C4_counterexample :
    get_opt_vars [sheetC4] "OPT" [] =
      Except.ok [⟨"A", 0, 5, 1, "C", false⟩, ⟨"A", 0, 0, 1, "C", false⟩] ∧
    (5 : ℚ) ≥ 1 :=
  ⟨by simp +decide [get_opt_vars, sheetC4, get_opt_vars_rows, lowerStr], by norm_num⟩

/-- A one-row spreadsheet declaring variable `"A"` with the given bound cells,
as consumed by `get_opt_vars`. -/
def mkBoundsSheet (lb ub : ℚ) : Spreadsheet :=
  { name := "opt"
    numberOfColumns := 3
    numberOfRows := 1
    cell := fun i j =>
      if i = 1 ∧ j = 1 then ⟨"A", "C", 0, none⟩
      else if i = 1 ∧ j = 2 then ⟨"", "", 0, some lb⟩
      else if i = 1 ∧ j = 3 then ⟨"", "", 0, some ub⟩
      else ⟨"", "", 0, none⟩ }

/-- C4 amended: parameter registration performs no bounds comparison and no
name-uniqueness check.  Whatever the bound cells hold — in particular with
`lower ≥ upper` — and whatever parameters are already registered — in
particular one with the same name — both registration paths append the new
parameter and report success; registration errors exist only for structural
problems (missing spreadsheet/column/stream, fewer than three columns,
unreadable bound cells, missing linked bottom-pressure cell). -/
theorem C4_registration_never_validates_bounds (lb ub lbf ubf : ℚ)
    (ps : List ParamRec) :
    get_opt_vars [mkBoundsSheet lb ub] "opt" ps =
      Except.ok (ps ++ [⟨"A", 0, lb, ub, "C", false⟩]) ∧
    optimize_feed_location [⟨"T1", [⟨"F1", "materialstream"⟩]⟩] "t1" none lbf ubf ps =
      Except.ok (ps ++ [⟨"T1: Feed Location (F1)", -1, lbf, ubf, "feed_location", false⟩]) := by
  constructor
  · simp +decide [get_opt_vars, mkBoundsSheet, get_opt_vars_rows, lowerStr]
  · simp +decide [optimize_feed_location, findFeedStream, lowerStr]

/-- Objective function of the concrete C5/C10 swarm instances. -/
def objW : (Fin 1 → ℚ) → ℚ := fun _ => 0

/-- Lower bound of the concrete swarm instances. -/
def lbW : Fin 1 → ℚ := fun _ => 0

/-- Upper bound of the concrete swarm instances. -/
def ubW : Fin 1 → ℚ := fun _ => 1

/-- Random streams of the concrete swarm instances (all draws 0). -/
def rSW : ℕ → Fin 1 → Fin 1 → ℚ := fun _ _ _ => 0

/-- The callback of the C5 counterexample: it raises on every invocation. -/
def cbErrC5 : ℕ → (Fin 1 → Fin 1 → ℚ) → (Fin 1 → ℚ) → Except ℕ Unit :=
  fun _ _ _ => Except.error 0

/-- A callback that never raises, for the C5 witness. -/
def cbOkC5 : ℕ → (Fin 1 → Fin 1 → ℚ) → (Fin 1 → ℚ) → Except ℕ Unit :=
  fun _ _ _ => Except.ok ()

/-- The initial swarm state of the C5 instances. -/
def sC5 : PSOState 1 1 :=
  PSO.init objW lbW ubW (fun _ _ => 0) (fun _ _ => 0) Nat.one_pos

/-- C5 counterexample: the claim says a raised exception in the per-iteration
callback does not abort the search, which continues through all remaining
iterations and still reports a global best.  With a callback that raises on
its first invocation, a two-iteration run aborts immediately with the
callback's error: the second iteration is never executed and no global best is
returned. -/
theorem C5_counterexample :
    PSO.runCb objW lbW ubW rSW rSW cbErrC5 sC5 2 = Except.error 0 := rfl

/-- The callback invocation performed at the end of iteration `m` of the run:
the callback receives the iteration index `m` and the post-iteration
positions and scores, i.e. those of the state after `m+1` iterations. -/
def cbAtIter {n d : ℕ} {ε : Type} (objfunc : (Fin d → ℚ) → ℚ) (lb ub : Fin d → ℚ)
    (rpS rgS : ℕ → Fin n → Fin d → ℚ)
    (cb : ℕ → (Fin n → Fin d → ℚ) → (Fin n → ℚ) → Except ε Unit)
    (s : PSOState n d) (m : ℕ) : Except ε Unit :=
  cb m ((PSO.run objfunc lb ub rpS rgS s (m + 1)).particles)
    ((PSO.run objfunc lb ub rpS rgS s (m + 1)).scores)

theorem runCb_succ_err {n d : ℕ} {ε : Type} (objfunc : (Fin d → ℚ) → ℚ)
    (lb ub : Fin d → ℚ) (rpS rgS : ℕ → Fin n → Fin d → ℚ)
    (cb : ℕ → (Fin n → Fin d → ℚ) → (Fin n → ℚ) → Except ε Unit)
    (s : PSOState n d) {k : ℕ} {e : ε}
    (h : PSO.runCb objfunc lb ub rpS rgS cb s k = Except.error e) :
    PSO.runCb objfunc lb ub rpS rgS cb s (k + 1) = Except.error e := by
  unfold PSO.runCb
  rw [h]

theorem runCb_succ_of_ok {n d : ℕ} {ε : Type} (objfunc : (Fin d → ℚ) → ℚ)
    (lb ub : Fin d → ℚ) (rpS rgS : ℕ → Fin n → Fin d → ℚ)
    (cb : ℕ → (Fin n → Fin d → ℚ) → (Fin n → ℚ) → Except ε Unit)
    (s : PSOState n d) {k : ℕ} {st : PSOState n d}
    (h : PSO.runCb objfunc lb ub rpS rgS cb s k = Except.ok st)
    (hcb : cb k ((PSO.step objfunc lb ub (rpS k) (rgS k) st).particles)
      ((PSO.step objfunc lb ub (rpS k) (rgS k) st).scores) = Except.ok ()) :
    PSO.runCb objfunc lb ub rpS rgS cb s (k + 1) =
      Except.ok (PSO.step objfunc lb ub (rpS k) (rgS k) st) := by
  unfold PSO.runCb
  rw [h]
  dsimp only
  rw [hcb]

theorem runCb_succ_of_err {n d : ℕ} {ε : Type} (objfunc : (Fin d → ℚ) → ℚ)
    (lb ub : Fin d → ℚ) (rpS rgS : ℕ → Fin n → Fin d → ℚ)
    (cb : ℕ → (Fin n → Fin d → ℚ) → (Fin n → ℚ) → Except ε Unit)
    (s : PSOState n d) {k : ℕ} {st : PSOState n d} {e : ε}
    (h : PSO.runCb objfunc lb ub rpS rgS cb s k = Except.ok st)
    (hcb : cb k ((PSO.step objfunc lb ub (rpS k) (rgS k) st).particles)
      ((PSO.step objfunc lb ub (rpS k) (rgS k) st).scores) = Except.error e) :
    PSO.runCb objfunc lb ub rpS rgS cb s (k + 1) = Except.error e := by
  unfold PSO.runCb
  rw [h]
  dsimp only
  rw [hcb]

/-- C5 amended: an exception raised by the callback propagates out of `run`
(the code invokes the callback with no handler) and aborts the search at that
iteration: a run over `k` iterations returns a swarm state iff every callback
invocation performed along those iterations returned without raising — and
then the state is exactly that of a callback-free run, so a run in which some
invocation raises returns no global best; moreover the run returns precisely
the first exception raised along its trajectory. -/
theorem C5_callback_error_aborts {n d : ℕ} {ε : Type}
    (objfunc : (Fin d → ℚ) → ℚ) (lb ub : Fin d → ℚ)
    (rpS rgS : ℕ → Fin n → Fin d → ℚ)
    (cb : ℕ → (Fin n → Fin d → ℚ) → (Fin n → ℚ) → Except ε Unit)
    (s : PSOState n d) (k : ℕ) :
    (∀ st, PSO.runCb objfunc lb ub rpS rgS cb s k = Except.ok st ↔
      (st = PSO.run objfunc lb ub rpS rgS s k ∧
        ∀ m, m < k → cbAtIter objfunc lb ub rpS rgS cb s m = Except.ok ())) ∧
    (∀ e m, m < k →
      (∀ m', m' < m → cbAtIter objfunc lb ub rpS rgS cb s m' = Except.ok ()) →
      cbAtIter objfunc lb ub rpS rgS cb s m = Except.error e →
      PSO.runCb objfunc lb ub rpS rgS cb s k = Except.error e) := by
  induction k with
  | zero =>
    refine ⟨fun st => ⟨fun h => ?_, fun ⟨hst, _⟩ => ?_⟩,
      fun e m hm _ _ => absurd hm (Nat.not_lt_zero m)⟩
    · have h' : (Except.ok s : Except ε (PSOState n d)) = Except.ok st := h
      injection h' with h2
      exact ⟨by rw [← h2]; rfl, fun m hm => absurd hm (Nat.not_lt_zero m)⟩
    · subst hst; rfl
  | succ k ih =>
    obtain ⟨ih1, ih2⟩ := ih
    constructor
    · intro st
      constructor
      · intro h
        cases hk : PSO.runCb objfunc lb ub rpS rgS cb s k with
        | error e =>
          rw [runCb_succ_err objfunc lb ub rpS rgS cb s hk] at h
          exact absurd h (by simp)
        | ok st0 =>
          obtain ⟨hst0, hall⟩ := (ih1 st0).mp hk
          subst hst0
          cases hcb : cbAtIter objfunc lb ub rpS rgS cb s k with
          | ok u =>
            cases u
            rw [runCb_succ_of_ok objfunc lb ub rpS rgS cb s hk hcb] at h
            injection h with h2
            refine ⟨by rw [← h2]; rfl, fun m hm => ?_⟩
            rcases Nat.lt_succ_iff_lt_or_eq.mp hm with hm' | rfl
            · exact hall m hm'
            · exact hcb
          | error e =>
            rw [runCb_succ_of_err objfunc lb ub rpS rgS cb s hk hcb] at h
            exact absurd h (by simp)
      · rintro ⟨hst, hall⟩
        subst hst
        have hok : PSO.runCb objfunc lb ub rpS rgS cb s k =
            Except.ok (PSO.run objfunc lb ub rpS rgS s k) :=
          (ih1 _).mpr ⟨rfl, fun m hm => hall m (hm.trans (Nat.lt_succ_self k))⟩
        exact runCb_succ_of_ok objfunc lb ub rpS rgS cb s hok
          (hall k (Nat.lt_succ_self k))
    · intro e m hm hprev herr
      rcases Nat.lt_succ_iff_lt_or_eq.mp hm with hm' | rfl
      · exact runCb_succ_err objfunc lb ub rpS rgS cb s (ih2 e m hm' hprev herr)
      · have hok : PSO.runCb objfunc lb ub rpS rgS cb s m =
            Except.ok (PSO.run objfunc lb ub rpS rgS s m) :=
          (ih1 _).mpr ⟨rfl, fun m' hm' => hprev m' hm'⟩
        exact runCb_succ_of_err objfunc lb ub rpS rgS cb s hok herr

/-- C5 witness: both halves of the amended claim at concrete inputs — the
always-raising callback makes a two-iteration run return its exception (its
first invocation, at iteration 0, raises), and the never-raising callback
makes a one-iteration run complete with the callback-free run's state. -/
theorem C5_witness :
    PSO.runCb objW lbW ubW rSW rSW cbErrC5 sC5 2 = Except.error 0 ∧
    PSO.runCb objW lbW ubW rSW rSW cbOkC5 sC5 1 =
      Except.ok (PSO.run objW lbW ubW rSW rSW sC5 1) :=
  ⟨(C5_callback_error_aborts objW lbW ubW rSW rSW cbErrC5 sC5 2).2 0 0
      (by norm_num) (fun m' hm' => absurd hm' (Nat.not_lt_zero m')) rfl,
    ((C5_callback_error_aborts objW lbW ubW rSW rSW cbOkC5 sC5 1).1 _).mpr
      ⟨rfl, fun m hm => rfl⟩⟩

/-- C6: in every iteration, for every particle and dimension, the updated
velocity is `0.5*v + 0.5*rp*(pbest − pos) + 0.5*rg*(gbest − pos)` (the random
factors `rp`, `rg` are the injected per-particle, per-dimension draws), and
the new position is the previous position plus the updated velocity, clamped
component-wise to `[lb, ub]`. -/
theorem C6_velocity_position_update {n d : ℕ} (objfunc : (Fin d → ℚ) → ℚ)
    (lb ub : Fin d → ℚ) (rp rg : Fin n → Fin d → ℚ) (s : PSOState n d)
    (i : Fin n) (j : Fin d) :
    (PSO.step objfunc lb ub rp rg s).pvel i j =
      (1/2) * s.pvel i j + (1/2) * rp i j * (s.pbest i j - s.particles i j)
        + (1/2) * rg i j * (s.global_best j - s.particles i j) ∧
    (PSO.step objfunc lb ub rp rg s).particles i j =
      min (max (s.particles i j + (PSO.step objfunc lb ub rp rg s).pvel i j) (lb j))
        (ub j) := by
  constructor
  · rw [step_pvel]; rfl
  · rw [step_particles, step_pvel]; rfl

/-- C7: every particle position lies within the per-dimension `[lb, ub]`
bounds, at initialization (positions are sampled as `lb + r*(ub-lb)` with
`r ∈ [0,1)`) and after every iteration's position update (positions are
clamped to the bounds). -/
theorem C7_positions_within_bounds {n d : ℕ} (objfunc : (Fin d → ℚ) → ℚ)
    (lb ub : Fin d → ℚ) (r0 rv : Fin n → Fin d → ℚ)
    (rpS rgS : ℕ → Fin n → Fin d → ℚ) (hn : 0 < n)
    (hb : ∀ j, lb j ≤ ub j) (hr : ∀ i j, 0 ≤ r0 i j ∧ r0 i j < 1)
    (k : ℕ) (i : Fin n) (j : Fin d) :
    lb j ≤ (PSO.run objfunc lb ub rpS rgS (PSO.init objfunc lb ub r0 rv hn) k).particles i j ∧
    (PSO.run objfunc lb ub rpS rgS (PSO.init objfunc lb ub r0 rv hn) k).particles i j ≤ ub j := by
  cases k with
  | zero =>
    show lb j ≤ (PSO.init objfunc lb ub r0 rv hn).particles i j ∧
      (PSO.init objfunc lb ub r0 rv hn).particles i j ≤ ub j
    rw [init_particles]
    obtain ⟨h0, h1⟩ := hr i j
    have hd : (0:ℚ) ≤ ub j - lb j := sub_nonneg.mpr (hb j)
    constructor
    · nlinarith [mul_nonneg h0 hd]
    · nlinarith [mul_nonneg (by linarith : (0:ℚ) ≤ 1 - r0 i j) hd]
  | succ k =>
    rw [run_succ, step_particles]
    unfold stepPos
    exact clamp_bounds (hb j)

/-- Initial position/velocity draws of the C7/C8 witness instances. -/
def rInitW : Fin 1 → Fin 1 → ℚ := fun _ _ => 0

/-- C7 witness: the concrete one-particle, one-dimensional swarm on `[0, 1]`
stays within its bounds after one iteration. -/
theorem C7_witness :
    0 < 1 ∧ (∀ j : Fin 1, lbW j ≤ ubW j) ∧
    (∀ (i j : Fin 1), 0 ≤ rInitW i j ∧ rInitW i j < 1) ∧
    (lbW 0 ≤ (PSO.run objW lbW ubW rSW rSW
        (PSO.init objW lbW ubW rInitW rInitW Nat.one_pos) 1).particles 0 0 ∧
      (PSO.run objW lbW ubW rSW rSW
        (PSO.init objW lbW ubW rInitW rInitW Nat.one_pos) 1).particles 0 0 ≤ ubW 0) :=
  ⟨Nat.one_pos, fun j => by norm_num [lbW, ubW], fun i j => by norm_num [rInitW],
    C7_positions_within_bounds objW lbW ubW rInitW rInitW rSW rSW Nat.one_pos
      (fun j => by norm_num [lbW, ubW]) (fun i j => by norm_num [rInitW]) 1 0 0⟩

/-- C8: at initialization (the global best seeds at the argmin of the initial
scores) and after every iteration, the global-best score is at most every
particle's personal-best score, and the global-best score never increases from
one iteration to the next. -/
theorem C8_global_best_dominates {n d : ℕ} (objfunc : (Fin d → ℚ) → ℚ)
    (lb ub : Fin d → ℚ) (r0 rv : Fin n → Fin d → ℚ)
    (rpS rgS : ℕ → Fin n → Fin d → ℚ) (hn : 0 < n) (k : ℕ) :
    (∀ i, (PSO.run objfunc lb ub rpS rgS (PSO.init objfunc lb ub r0 rv hn) k).global_best_score ≤
      (PSO.run objfunc lb ub rpS rgS (PSO.init objfunc lb ub r0 rv hn) k).pbest_score i) ∧
    (PSO.run objfunc lb ub rpS rgS (PSO.init objfunc lb ub r0 rv hn) (k + 1)).global_best_score ≤
      (PSO.run objfunc lb ub rpS rgS (PSO.init objfunc lb ub r0 rv hn) k).global_best_score := by
  have hinv : ∀ m : ℕ, ∀ i,
      (PSO.run objfunc lb ub rpS rgS (PSO.init objfunc lb ub r0 rv hn) m).global_best_score ≤
        (PSO.run objfunc lb ub rpS rgS (PSO.init objfunc lb ub r0 rv hn) m).pbest_score i := by
    intro m
    induction m with
    | zero =>
      intro i
      exact argminFin_le _ hn i
    | succ m ih =>
      intro i
      rw [run_succ]
      exact step_inv objfunc lb ub (rpS m) (rgS m) _ ih i
  refine ⟨hinv k, ?_⟩
  rw [run_succ]
  apply step_gbs_le

/-- C8 witness: the invariant and the monotonicity at the concrete
one-particle instance after zero iterations. -/
theorem C8_witness :
    0 < 1 ∧
    ((∀ i, (PSO.run objW lbW ubW rSW rSW
        (PSO.init objW lbW ubW rInitW rInitW Nat.one_pos) 0).global_best_score ≤
      (PSO.run objW lbW ubW rSW rSW
        (PSO.init objW lbW ubW rInitW rInitW Nat.one_pos) 0).pbest_score i) ∧
    (PSO.run objW lbW ubW rSW rSW
        (PSO.init objW lbW ubW rInitW rInitW Nat.one_pos) 1).global_best_score ≤
      (PSO.run objW lbW ubW rSW rSW
        (PSO.init objW lbW ubW rInitW rInitW Nat.one_pos) 0).global_best_score) :=
  ⟨Nat.one_pos, C8_global_best_dominates objW lbW ubW rInitW rInitW rSW rSW Nat.one_pos 0⟩

/-- C10: a particle whose re-evaluation is skipped changes no best-tracking
state while it is processed — processing it is the identity on the whole
swarm state, so its stored score, personal best (position and score) and the
global best (position and score) are exactly what they were before it was
processed — and across the whole iteration its stored score, personal-best
position and personal-best score are unchanged; best-tracking updates happen
only inside the `to_evaluate` branch, i.e. only for re-evaluated particles. -/
theorem C10_skip_preserves_best_state {n d : ℕ} (objfunc : (Fin d → ℚ) → ℚ)
    (lb ub : Fin d → ℚ) (rp rg : Fin n → Fin d → ℚ) (s : PSOState n d)
    (i : Fin n)
    (h : toEvaluate (stepPos lb ub rp rg s) s.particles i = false) :
    (∀ st : PSOState n d,
      processParticle objfunc (toEvaluate (stepPos lb ub rp rg s) s.particles) st i = st) ∧
    (PSO.step objfunc lb ub rp rg s).scores i = s.scores i ∧
    (PSO.step objfunc lb ub rp rg s).pbest i = s.pbest i ∧
    (PSO.step objfunc lb ub rp rg s).pbest_score i = s.pbest_score i := by
  refine ⟨fun st => processParticle_skip objfunc _ st i h, ?_⟩
  unfold PSO.step
  apply foldl_pp_other_fields
  exact h

/-- The swarm state of the C10 witness: a stationary particle (zero velocity,
personal and global bests at the current position), so its movement is `0 ≤ ptol`
and the skip test is false. -/
def sC10 : PSOState 1 1 :=
  { particles := fun _ _ => 0
    pvel := fun _ _ => 0
    scores := fun _ => 5
    pbest := fun _ _ => 0
    pbest_score := fun _ => 5
    global_best := fun _ => 0
    global_best_score := 5 }

/-- The stationary C10 witness particle fails the skip test: its movement is
zero in every dimension, which is not more than `ptol`. -/
theorem sC10_skip_test :
    toEvaluate (stepPos lbW ubW (rSW 0) (rSW 0) sC10) sC10.particles 0 = false := by
  have hstep : stepPos lbW ubW (rSW 0) (rSW 0) sC10 0 0 = 0 := by
    norm_num [stepPos, stepVel, sC10, lbW, ubW, rSW]
  simp only [toEvaluate, decide_eq_false_iff_not]
  intro hall
  have h0 := hall 0
  rw [hstep] at h0
  norm_num [sC10, ptol] at h0

/-- C10 witness: the stationary particle is skipped, and neither its score nor
any best-tracking state changes over the iteration. -/
theorem C10_witness :
    toEvaluate (stepPos lbW ubW (rSW 0) (rSW 0) sC10) sC10.particles 0 = false ∧
    ((∀ st : PSOState 1 1,
      processParticle objW (toEvaluate (stepPos lbW ubW (rSW 0) (rSW 0) sC10) sC10.particles) st 0 = st) ∧
    (PSO.step objW lbW ubW (rSW 0) (rSW 0) sC10).scores 0 = sC10.scores 0 ∧
    (PSO.step objW lbW ubW (rSW 0) (rSW 0) sC10).pbest 0 = sC10.pbest 0 ∧
    (PSO.step objW lbW ubW (rSW 0) (rSW 0) sC10).pbest_score 0 = sC10.pbest_score 0) :=
  ⟨sC10_skip_test,
    C10_skip_preserves_best_state objW lbW ubW (rSW 0) (rSW 0) sC10 0 sC10_skip_test⟩

end HysysOpt



